import Mathlib

/-!
Shallow embedding of `simsym.py`, a symbolic execution engine for Python.

The engine wraps Z3 terms as first-class values; observing a symbolic
boolean in a boolean context consults the path scheduler, which decides
branch feasibility with the SMT solver and forks the schedule.  The SMT
solver itself is external: we model it as an oracle mapping an assertion
list to a check result, with a separate oracle for the "isolated" fresh
solver used to retry `unknown` results.
-/

namespace Simsym

/-- Abstract syntax of the Z3 expressions the engine builds (the
`z3.ExprRef` values that flow through `simsym.py`). -/
inductive Term : Type
  | var (name : String)
  | intLit (n : Int)
  | boolLit (b : Bool)
  | not (t : Term)
  | and (ts : List Term)
  | or (ts : List Term)
  | implies (a b : Term)
  | eq (a b : Term)
  | select (m i : Term)
  | store (m i v : Term)
  | forallQ (vars : List Term) (body : Term)
  | existsQ (vars : List Term) (body : Term)

/-- Result of `z3.Solver.check()`: `z3.sat`, `z3.unsat` or `z3.unknown`. -/
inductive CheckRes : Type
  | sat
  | unsat
  | unknown
deriving DecidableEq, Repr

/-- A check result together with the string `reason_unknown()` captured
right after the check. -/
structure CheckOut : Type where
  res : CheckRes
  reason : String

/-- The SMT solver, modelled as an oracle.  `incr` is the incremental
check (`solver.check()` on the current assertion stack); `iso` is the
check performed by a fresh `z3.Solver()` loaded with the same assertions
(`s2.add(*solver.assertions()); s2.check()`).  The two may disagree:
stack operations change how Z3 compiles formulas, which is exactly why
the code retries `unknown` in isolation. -/
structure Oracle : Type where
  incr : List Term → CheckOut
  iso : List Term → CheckOut

/-- Check, then retry in a fresh isolated solver whenever the incremental
check returns unknown (the `if canTrue == z3.unknown:` retry blocks in
`SBool.__nonzero__` and the retry block in `assume`). -/
def retryCheck (o : Oracle) (asserts : List Term) : CheckOut :=
  if (o.incr asserts).res = CheckRes.unknown then o.iso asserts else o.incr asserts

/-- A schedule entry's choice: `True`, `False`, `None` (non-forking
assumption entry) or an `UncheckableConstraintError` marker carrying the
uncheckable expression and the solver's reason. -/
inductive Choice : Type
  | ctrue
  | cfalse
  | cnone
  | marker (expr : Term) (reason : String)

/-- A schedule: the list of `(choice, graph node)` entries.  Graph nodes
are identifiers allocated from a counter (the execution-graph
side-channel's labels and edges are debug-only and not modelled). -/
abbrev Sched : Type := List (Choice × Nat)

/-- The process-wide mutable state of the scheduler: the current
solver's assertion list, the current schedule, the index into it, the
queue of schedules, and the graph-node allocation counter. -/
structure EngState : Type where
  assertions : List Term
  cursched : Sched
  curschedidx : Nat
  schedq : List Sched
  nodeCtr : Nat

/-- Errors raised by the engine core. -/
inductive EngErr : Type
  | branchContradiction
  | uncheckable (expr : Term) (reason : String)
  | unsatPath
  | badScheduleEntry
  | indexError
  | assertionFailed

/-- Mirror of `queue_schedule(s)`: `schedq.append(s)`. -/
def queue_schedule (s : Sched) (schedq : List Sched) : List Sched :=
  schedq ++ [s]

/-- The tail of `SBool.__nonzero__`: follow the (possibly just extended)
schedule.  `rv = cursched[curschedidx][0]`; on `True` assert the term, on
`False` assert its negation, on an uncheckable marker raise it, otherwise
raise "Bad schedule entry"; then advance `curschedidx` and return `rv`.
The returned state is the state at the point of return or raise (the
index is advanced only on the non-raising branches, as in the source). -/
def followSched (v : Term) (s : EngState) : EngState × Except EngErr Bool :=
  match s.cursched[s.curschedidx]? with
  | some (Choice.ctrue, _) =>
      ({ s with assertions := s.assertions ++ [v],
                curschedidx := s.curschedidx + 1 }, Except.ok true)
  | some (Choice.cfalse, _) =>
      ({ s with assertions := s.assertions ++ [Term.not v],
                curschedidx := s.curschedidx + 1 }, Except.ok false)
  | some (Choice.marker e r, _) => (s, Except.error (EngErr.uncheckable e r))
  | some (Choice.cnone, _) => (s, Except.error EngErr.badScheduleEntry)
  | none => (s, Except.error EngErr.indexError)

/-- The extension phase of `SBool.__nonzero__`, entered when
`len(cursched) == curschedidx`.  Both branch directions are checked
(each retried in isolation on unknown); then:

* both unsat: raise "Branch contradiction" (before any mutation);
* exactly one sat, the other unsat: append that choice, reusing the
  graph node `cursched[-1][1]`; nothing is enqueued;
* otherwise ("Both are possible; take both paths"): allocate two graph
  nodes, append to `cursched` the True choice if True is sat, else an
  uncheckable marker for the term; clone the schedule as it was before
  that append, append to the clone the False choice if False is sat,
  else an uncheckable marker for the negated term; enqueue the clone. -/
def extendSched (o : Oracle) (v : Term) (s : EngState) : Except EngErr EngState :=
  let canTrue := retryCheck o (s.assertions ++ [v])
  let canFalse := retryCheck o (s.assertions ++ [Term.not v])
  let lastNode := ((s.cursched.getLast?).getD (Choice.cnone, 0)).2
  if canTrue.res = CheckRes.unsat ∧ canFalse.res = CheckRes.unsat then
    Except.error EngErr.branchContradiction
  else if canTrue.res = CheckRes.sat ∧ canFalse.res = CheckRes.unsat then
    Except.ok { s with cursched := s.cursched ++ [(Choice.ctrue, lastNode)] }
  else if canTrue.res = CheckRes.unsat ∧ canFalse.res = CheckRes.sat then
    Except.ok { s with cursched := s.cursched ++ [(Choice.cfalse, lastNode)] }
  else
    let tnode := s.nodeCtr
    let fnode := s.nodeCtr + 1
    let trueEntry :=
      if canTrue.res = CheckRes.sat then (Choice.ctrue, tnode)
      else (Choice.marker v canTrue.reason, tnode)
    let falseEntry :=
      if canFalse.res = CheckRes.sat then (Choice.cfalse, fnode)
      else (Choice.marker (Term.not v) canFalse.reason, fnode)
    Except.ok { s with
      cursched := s.cursched ++ [trueEntry],
      schedq := queue_schedule (s.cursched ++ [falseEntry]) s.schedq,
      nodeCtr := s.nodeCtr + 2 }

/-- Mirror of `SBool.__nonzero__(self)` where `v` is `self._v`: extend
the schedule when at its end, then follow it. -/
def nonzero (o : Oracle) (v : Term) (s : EngState) : EngState × Except EngErr Bool :=
  if s.cursched.length = s.curschedidx then
    match extendSched o v s with
    | Except.error e => (s, Except.error e)
    | Except.ok s1 => followSched v s1
  else
    followSched v s

/-- Python-level values flowing through the logical helpers: host
booleans, host integers, symbolic wrappers around a Z3 term (any
`Symbolic` instance), and host tuples (handled specially by `symeq`).
Host `long`/`float` behave like `int` at the wrapping boundary and are
not distinguished here. -/
inductive PyVal : Type
  | bool (b : Bool)
  | int (n : Int)
  | sym (t : Term)
  | tuple (elems : List PyVal)

/-- The `isinstance(x, Symbolic)` test used by the logical helpers. -/
def isSymbolic : PyVal → Bool
  | PyVal.sym _ => true
  | _ => false

/-- Python truthiness, as used by `all`/`any`/`not` on host values. -/
def truthy : PyVal → Bool
  | PyVal.bool b => b
  | PyVal.int n => n != 0
  | PyVal.sym _ => true
  | PyVal.tuple es => !es.isEmpty

/-- The Z3 value of a Python-level operand: `unwrap` for `Symbolic`
values, and Z3's coercion of host booleans and integers into literal
terms when they appear as operands of a Z3 connective.  A host tuple has
no Z3 coercion (Z3 would reject it); the constant below stands for that
unreachable case. -/
def toTerm : PyVal → Term
  | PyVal.bool b => Term.boolLit b
  | PyVal.int n => Term.intLit n
  | PyVal.sym t => t
  | PyVal.tuple _ => Term.var "unsupported"

/-- Mirror of `symand(exprlist)`: if any element is `Symbolic`, build
`wrap(z3.And([unwrap(x) for x in exprlist]))`; otherwise host
`all(exprlist)`. -/
def symand (exprlist : List PyVal) : PyVal :=
  if exprlist.any isSymbolic then PyVal.sym (Term.and (exprlist.map toTerm))
  else PyVal.bool (exprlist.all truthy)

/-- Mirror of `symor(exprlist)`: symbolic `z3.Or` if any element is
`Symbolic`, otherwise host `any(exprlist)`. -/
def symor (exprlist : List PyVal) : PyVal :=
  if exprlist.any isSymbolic then PyVal.sym (Term.or (exprlist.map toTerm))
  else PyVal.bool (exprlist.any truthy)

/-- Mirror of `symnot(e)`: `wrap(z3.Not(unwrap(e)))` when `e` is
`Symbolic`, host `not e` otherwise. -/
def symnot (e : PyVal) : PyVal :=
  match e with
  | PyVal.sym t => PyVal.sym (Term.not t)
  | _ => PyVal.bool (!truthy e)

/-- The scalar `a == b` reached by `symeq` when the operands are not
both tuples.  When either side is `Symbolic` this builds a Z3 equality
term (via `SExpr.__eq__`, possibly reflected, which puts the symbolic
operand first); on host scalars it is Python equality, under which
booleans compare equal to the integers 0 and 1; values of unrelated
types compare unequal. -/
def pyEq (a b : PyVal) : PyVal :=
  match a, b with
  | PyVal.sym t, bb => PyVal.sym (Term.eq t (toTerm bb))
  | aa, PyVal.sym t => PyVal.sym (Term.eq t (toTerm aa))
  | PyVal.bool x, PyVal.bool y => PyVal.bool (x == y)
  | PyVal.int m, PyVal.int n => PyVal.bool (m == n)
  | PyVal.bool x, PyVal.int n => PyVal.bool ((if x then (1 : Int) else 0) == n)
  | PyVal.int m, PyVal.bool y => PyVal.bool (m == (if y then (1 : Int) else 0))
  | _, _ => PyVal.bool false

mutual
/-- Mirror of `symeq(a, b)`: tuples of unequal length are `False`,
tuples of equal length compare by `symand` of elementwise `symeq`, and
anything else falls through to `a == b`. -/
def symeq : PyVal → PyVal → PyVal
  | PyVal.tuple xs, PyVal.tuple ys =>
      if xs.length ≠ ys.length then PyVal.bool false
      else symand (symeqList xs ys)
  | a, b => pyEq a b

/-- The list comprehension `[symeq(aa, bb) for (aa, bb) in zip(a, b)]`. -/
def symeqList : List PyVal → List PyVal → List PyVal
  | x :: xs, y :: ys => symeq x y :: symeqList xs ys
  | _, _ => []
end

/-- Mirror of `implies(a, b)`: unconditionally
`wrap(z3.Implies(unwrap(a), unwrap(b)))` — there is no concrete-operand
shortcut in the source. -/
def implies (a b : PyVal) : PyVal :=
  PyVal.sym (Term.implies (toTerm a) (toTerm b))

/-- Mirror of `forall(vars, e, patterns=[])`: a concrete `e` (neither
`Symbolic` nor a Z3 ref) is returned unchanged; otherwise build the
quantified term.  We always pass the variable list already normalized;
Z3 instantiation patterns are not modelled. -/
def symForall (vars : List PyVal) (e : PyVal) : PyVal :=
  match e with
  | PyVal.sym t => PyVal.sym (Term.forallQ (vars.map toTerm) t)
  | _ => e

/-- Mirror of `exists(vars, e, patterns=[])`, as for `symForall`. -/
def symExists (vars : List PyVal) (e : PyVal) : PyVal :=
  match e with
  | PyVal.sym t => PyVal.sym (Term.existsQ (vars.map toTerm) t)
  | _ => e

/-- The `e is True` identity test at the top of `assume`. -/
def isTrueLit : PyVal → Bool
  | PyVal.bool true => true
  | _ => false

/-- Graph node id allocated for the `(None, nextnode)` entry appended by
`assume`: when `cursched` is empty an extra `gnode` is allocated first. -/
def assumeNextNode (s : EngState) : Nat :=
  if s.cursched.isEmpty then s.nodeCtr + 1 else s.nodeCtr

/-- Mirror of `assume(e)`.  Literal `True` returns immediately.  Then
the solver checks `not e` on the current assertions without retry; if
that is unsat the assumption is already implied and `assume` is a no-op
(nothing asserted, schedule untouched).  Otherwise, at end-of-schedule a
non-forking `(None, node)` entry is appended (with graph-node
allocation); the entry at `curschedidx` must be a `None` entry (else the
`assert` fails); the index advances, `e` is asserted, and the solver
re-checks with the isolated retry: unsat raises `UnsatisfiablePath`, a
result that is still not sat (i.e. unknown) raises
`UncheckableConstraintError`. -/
def assume (o : Oracle) (e : PyVal) (s : EngState) : EngState × Except EngErr Unit :=
  if isTrueLit e then (s, Except.ok ())
  else
    if (o.incr (s.assertions ++ [toTerm (symnot e)])).res = CheckRes.unsat then
      (s, Except.ok ())
    else
      let s1 :=
        if s.cursched.length = s.curschedidx then
          { s with cursched := s.cursched ++ [(Choice.cnone, assumeNextNode s)],
                   nodeCtr := s.nodeCtr + (if s.cursched.isEmpty then 2 else 1) }
        else s
      match s1.cursched[s1.curschedidx]? with
      | some (Choice.cnone, _) =>
        let s2 := { s1 with curschedidx := s1.curschedidx + 1,
                            assertions := s1.assertions ++ [toTerm e] }
        let c := retryCheck o s2.assertions
        if c.res = CheckRes.unsat then (s2, Except.error EngErr.unsatPath)
        else if c.res ≠ CheckRes.sat then
          (s2, Except.error (EngErr.uncheckable (toTerm e) c.reason))
        else (s2, Except.ok ())
      | _ => (s1, Except.error EngErr.assertionFailed)

/-- How one invocation of the user function ends, as seen by
`__symbolic_apply_loop`: a returned value, an `UnsatisfiablePath`, an
`UncheckableConstraintError`, or any other exception (carrying its
message). -/
inductive PathOutcome (α : Type) : Type
  | ret (v : α)
  | unsatPath
  | uncheckable (expr : Term) (reason : String)
  | other (msg : String)

/-- The effect of running the user function on one popped schedule: its
outcome together with the schedules it queued (appended to `schedq`
during execution, in order).  Replay determinism makes this a function
of the popped schedule. -/
structure PathResult (α : Type) : Type where
  outcome : PathOutcome α
  newScheds : List Sched

/-- Observable behaviour of the exploration loop: the sequence of
yielded results, the `(expr, reason)` pairs printed for uncheckable
paths, and the message of the exception that aborted the loop, if any. -/
structure LoopTrace (α : Type) : Type where
  yields : List α
  logs : List (Term × String)
  aborted : Option String

/-- Mirror of `schedq.pop()`: remove and return the LAST element. -/
def popSched (q : List Sched) : Option Sched × List Sched :=
  (q.getLast?, q.dropLast)

/-- Mirror of the `while len(schedq) > 0` loop of
`__symbolic_apply_loop`, driven by fuel (the Python loop may run
unboundedly as paths enqueue new schedules).  Each iteration pops a
schedule, runs the function, appends any schedules queued during the
run, then: yields on normal return; silently discards an
`UnsatisfiablePath`; prints and discards an `UncheckableConstraintError`;
re-raises any other exception, ending the loop with the remaining queue
unexecuted. -/
def applyLoop {α : Type} (runFn : Sched → PathResult α) :
    Nat → List Sched → LoopTrace α
  | 0, _ => { yields := [], logs := [], aborted := none }
  | fuel + 1, q =>
    match popSched q with
    | (none, _) => { yields := [], logs := [], aborted := none }
    | (some cursched, rest) =>
      let r := runFn cursched
      let q1 := rest ++ r.newScheds
      match r.outcome with
      | PathOutcome.ret v =>
        let t := applyLoop runFn fuel q1
        { yields := v :: t.yields, logs := t.logs, aborted := t.aborted }
      | PathOutcome.unsatPath => applyLoop runFn fuel q1
      | PathOutcome.uncheckable expr reason =>
        let t := applyLoop runFn fuel q1
        { yields := t.yields, logs := (expr, reason) :: t.logs, aborted := t.aborted }
      | PathOutcome.other msg =>
        { yields := [], logs := [], aborted := some msg }

/-- Possible arguments of `wrap(ref)`: host booleans and integers
(`long`/`float` behave like `int` and are not distinguished), Z3
expressions, and any other host value (dict, string, None, ...). -/
inductive WrapArg : Type
  | pyBool (b : Bool)
  | pyInt (n : Int)
  | z3expr (t : Term)
  | hostOther (descr : String)

/-- Mirror of `wrap(ref)`: concrete types supported by Z3 pass through
unchanged; a value that is not a `z3.ExprRef` raises `TypeError`; a Z3
expression is wrapped in the `Symbolic` subclass matching its sort
(`SInt`/`SArith`/`SBool`/`SExpr` — the subclass distinction is
Python-level typing, uniformly a symbolic wrapper here). -/
def wrap : WrapArg → Except String PyVal
  | WrapArg.pyBool b => Except.ok (PyVal.bool b)
  | WrapArg.pyInt n => Except.ok (PyVal.int n)
  | WrapArg.z3expr t => Except.ok (PyVal.sym t)
  | WrapArg.hostOther _ => Except.error "Not a bool, int, long, float, or z3.ExprRef"

/-- A compound Z3 value as held by a mutable lvalue, at Python object
granularity: either a Z3 term (immutable) or a reference to a
heap-allocated Python dict.  The heap makes dict identity — and hence
the in-place mutation performed by `SStructBase.__setattr__` — explicit. -/
inductive PyCompound : Type
  | leaf (t : Term)
  | ref (a : Nat)

/-- A Python dict from field names to compound values. -/
abbrev Dict : Type := List (String × PyCompound)

/-- The heap of allocated dicts, addressed by `Nat`. -/
abbrev Heap : Type := List (Nat × Dict)

/-- In-place dict item assignment `d[k] = v`. -/
def dictSet : Dict → String → PyCompound → Dict
  | [], k, v => [(k, v)]
  | (k1, v1) :: rest, k, v =>
      if k1 = k then (k, v) :: rest else (k1, v1) :: dictSet rest k v

/-- Read the dict stored at address `a`. -/
def heapGet (h : Heap) (a : Nat) : Dict :=
  (h.lookup a).getD []

/-- Mutate, in place, the dict stored at address `a`: `h[a][k] = v`. -/
def heapSet (h : Heap) (a : Nat) (k : String) (v : PyCompound) : Heap :=
  h.map (fun p => if p.1 = a then (p.1, dictSet p.2 k v) else p)

/-- Mirror of `SStructBase.__setattr__(self, name, val)` on a top-level
struct lvalue whose cell holds `root`: `cval = self._getter()` fetches
the dict object itself, `cval[name] = unwrap(val)` mutates that dict in
place (no copy is taken), and `self._setter(cval)` stores the same dict
reference back into the cell.  The argument `v` is `unwrap(val)`, which
for a mutable struct operand is its live dict reference, not a copy. -/
def structSetattr (h : Heap) (root : PyCompound) (name : String) (v : PyCompound) : Heap :=
  match root with
  | PyCompound.ref a => heapSet h a name v
  | PyCompound.leaf _ => h

/-- Mirror of the read path of `SStructBase.__getattr__`: project
`self._getter()[name]` out of the parent dict. -/
def structGetattr (h : Heap) (root : PyCompound) (name : String) : PyCompound :=
  match root with
  | PyCompound.ref a => ((heapGet h a).lookup name).getD (PyCompound.leaf (Term.var "KeyError"))
  | PyCompound.leaf t => PyCompound.leaf t

/-- A compound value by structure (ignoring Python object identity):
interior nodes are field dicts, leaves are Z3 terms.  This is the view
under which compound equality flattens its operands. -/
inductive Compound : Type
  | leaf (t : Term)
  | node (fields : List (String × Compound))

mutual
/-- Mirror of `flatten_compound(compound)`: collect the Z3 leaves, in
field order. -/
def flatten_compound : Compound → List Term
  | Compound.leaf t => [t]
  | Compound.node fs => flattenFields fs

/-- Flattening of the field dict of a compound, in order. -/
def flattenFields : List (String × Compound) → List Term
  | [] => []
  | (_, c) :: rest => flatten_compound c ++ flattenFields rest
end

/-- Mirror of `SStructBase.__eq__` (and the identical `SMapBase.__eq__`)
after the `isinstance(o, type(self))` guard: flatten both compounds and
conjoin the pointwise `wrap(af == bf)` equality terms with `symand`. -/
def SStructBase.eq (a b : Compound) : PyVal :=
  symand (List.zipWith (fun af bf => PyVal.sym (Term.eq af bf))
    (flatten_compound a) (flatten_compound b))

/-- Mirror of `Symbolic.__ne__`: `symnot(self == o)`. -/
def Symbolic.ne (a b : Compound) : PyVal :=
  symnot (SStructBase.eq a b)

/-- Modelled from the spec: the "pointwise equality conjunction of their
flattenings" that compound equality is claimed to produce — one equality
term per pair of corresponding leaves, conjoined. -/
def flattenedEqConj (a b : Compound) : Term :=
  Term.and (List.zipWith Term.eq (flatten_compound a) (flatten_compound b))

/-- Values a completed Z3 model can produce for a leaf expression:
integer literals, boolean literals, values of an uninterpreted sort
(sort name plus witness index, e.g. `Token!val!0`), enum-datatype
constants, and any other expression kind. -/
inductive ZVal : Type
  | intVal (n : Int)
  | boolVal (b : Bool)
  | uninterp (sortName : String) (idx : Nat)
  | enumVal (name : String)
  | otherExpr (descr : String)
deriving DecidableEq, Repr

/-- Results of projecting a leaf through a model: host integers, host
booleans, or an opaque `Symbolic` wrapper around the model value
(`type(expr)._wrap(z3val, None)`). -/
inductive EvalRes : Type
  | int (n : Int)
  | bool (b : Bool)
  | wrapped (v : ZVal)
deriving DecidableEq, Repr

/-- Mirror of `Model._eval(self, expr)`.  The argument `m` is
`self.__z3_model.evaluate(·, model_completion=True)`: with model
completion, evaluation is total — Z3 invents concrete values for
unconstrained constants.  Then: `z3.is_int_value` yields `as_long()`;
`z3.is_true`/`z3.is_false` yield the host booleans; a value of an
uninterpreted sort is wrapped opaquely; anything else (e.g. an enum
constant) raises. -/
def Model.eval (m : Term → ZVal) (expr : Term) : Except String EvalRes :=
  match m expr with
  | ZVal.intVal n => Except.ok (EvalRes.int n)
  | ZVal.boolVal b => Except.ok (EvalRes.bool b)
  | ZVal.uninterp sn i => Except.ok (EvalRes.wrapped (ZVal.uninterp sn i))
  | ZVal.enumVal _ => Except.error "Expression is not a concrete value"
  | ZVal.otherExpr _ => Except.error "Expression is not a concrete value"

/-- An oracle whose every check is sat. -/
def oracleSat : Oracle :=
  { incr := fun _ => { res := CheckRes.sat, reason := "" },
    iso := fun _ => { res := CheckRes.sat, reason := "" } }

/-- An oracle that reports a single negated assertion unsat and
everything else unknown (also on the isolated retry). -/
def oracleUU : Oracle :=
  { incr := fun l =>
      match l with
      | [Term.not _] => { res := CheckRes.unsat, reason := "" }
      | _ => { res := CheckRes.unknown, reason := "timeout" },
    iso := fun l =>
      match l with
      | [Term.not _] => { res := CheckRes.unsat, reason := "" }
      | _ => { res := CheckRes.unknown, reason := "timeout" } }

/-- A freshly primed scheduler state: the root schedule entry already
consumed (`curschedidx = 1`), no assertions yet. -/
def statePrimed : EngState :=
  { assertions := [], cursched := [(Choice.cnone, 0)], curschedidx := 1,
    schedq := [], nodeCtr := 1 }

/-- A state in replay: one recorded True branch not yet consumed. -/
def stateReplay : EngState :=
  { assertions := [], cursched := [(Choice.cnone, 0), (Choice.ctrue, 0)],
    curschedidx := 1, schedq := [], nodeCtr := 1 }

/-- A run function whose paths end in an unsatisfiable path, an
uncheckable constraint, or a normal return, depending on the popped
schedule. -/
def runFnAssume : Sched → PathResult Nat := fun sched =>
  match sched with
  | [] => { outcome := PathOutcome.unsatPath, newScheds := [] }
  | [_] => { outcome := PathOutcome.uncheckable (Term.var "e") "timeout", newScheds := [] }
  | _ => { outcome := PathOutcome.ret 0, newScheds := [] }

/-- A run function that hits the `wrap` TypeError on the empty schedule
and returns normally otherwise. -/
def runFnWrapErr : Sched → PathResult Nat := fun sched =>
  match sched with
  | [] =>
    { outcome :=
        match wrap (WrapArg.hostOther "dict") with
        | Except.error msg => PathOutcome.other msg
        | Except.ok _ => PathOutcome.ret 0,
      newScheds := [] }
  | _ => { outcome := PathOutcome.ret 42, newScheds := [] }

/-- A run function returning the length of the popped schedule. -/
def runFnLen : Sched → PathResult Nat := fun sched =>
  { outcome := PathOutcome.ret sched.length, newScheds := [] }

/-- A two-field struct compound over fresh leaves, and a second one. -/
def compA : Compound :=
  Compound.node [("a", Compound.leaf (Term.var "x.a")), ("b", Compound.leaf (Term.var "x.b"))]

/-- A second two-field struct compound for equality tests. -/
def compB : Compound :=
  Compound.node [("a", Compound.leaf (Term.var "y.a")), ("b", Compound.leaf (Term.var "y.b"))]

/-- Initial heap for the aliasing scenario: `x` is the struct dict at
address 0 (field `g`), `y` the struct dict at address 1 (field `f`). -/
def heapX : Heap :=
  [(0, [("g", PyCompound.leaf (Term.var "x.g"))]),
   (1, [("f", PyCompound.leaf (Term.var "y.f"))])]

/-- Heap after `y.f = x`: `unwrap(x)` is the live dict reference at
address 0, stored without copying. -/
def heapY : Heap := structSetattr heapX (PyCompound.ref 1) "f" (PyCompound.ref 0)

/-- Heap after a subsequent `x.g = 5`, mutating the shared dict. -/
def heapZ : Heap := structSetattr heapY (PyCompound.ref 0) "g" (PyCompound.leaf (Term.intLit 5))

/-- The loop does nothing on an empty queue, whatever the fuel. -/
theorem applyLoop_nil {α : Type} (runFn : Sched → PathResult α) (fuel : Nat) :
    applyLoop runFn fuel [] = { yields := [], logs := [], aborted := none } := by
  cases fuel <;> simp [applyLoop, popSched]

/-- C4: when a symbolic boolean is observed while `curschedidx` is
strictly less than the schedule length (replay), the engine performs no
feasibility check — the result does not depend on the solver oracle —
and it asserts the term if the recorded choice is True, asserts its
negation if False, advances the index by one, and returns the recorded
concrete boolean; if the recorded entry is an uncheckable marker it
raises that error immediately. -/
theorem nonzero_replay_spec (o1 o2 : Oracle) (v : Term) (s : EngState)
    (c : Choice) (n : Nat)
    (hidx : s.curschedidx < s.cursched.length)
    (hentry : s.cursched[s.curschedidx]? = some (c, n)) :
    nonzero o1 v s = nonzero o2 v s
    ∧ (c = Choice.ctrue →
        nonzero o1 v s =
          ({ s with assertions := s.assertions ++ [v],
                    curschedidx := s.curschedidx + 1 }, Except.ok true))
    ∧ (c = Choice.cfalse →
        nonzero o1 v s =
          ({ s with assertions := s.assertions ++ [Term.not v],
                    curschedidx := s.curschedidx + 1 }, Except.ok false))
    ∧ (∀ e r, c = Choice.marker e r →
        nonzero o1 v s = (s, Except.error (EngErr.uncheckable e r))) := by
  have hne : s.cursched.length ≠ s.curschedidx := Nat.ne_of_gt hidx
  refine ⟨?_, ?_, ?_, ?_⟩
  · simp [nonzero, hne]
  · intro hc; subst hc
    simp [nonzero, hne, followSched, hentry]
  · intro hc; subst hc
    simp [nonzero, hne, followSched, hentry]
  · intro e r hc; subst hc
    simp [nonzero, hne, followSched, hentry]

/-- Witness for the replay theorem at a concrete state with a recorded
True choice. -/
theorem nonzero_replay_spec_witness :
    stateReplay.curschedidx < stateReplay.cursched.length
    ∧ stateReplay.cursched[stateReplay.curschedidx]? = some (Choice.ctrue, 0)
    ∧ nonzero oracleSat (Term.var "b") stateReplay =
        ({ stateReplay with assertions := [Term.var "b"], curschedidx := 2 },
         Except.ok true) := by
  refine ⟨by simp [stateReplay], by simp [stateReplay], ?_⟩
  have h := (nonzero_replay_spec oracleSat oracleUU (Term.var "b") stateReplay
      Choice.ctrue 0 (by simp [stateReplay]) (by simp [stateReplay])).2.1 rfl
  simpa [stateReplay] using h

/-- C1: when a symbolic boolean is observed at the end of the schedule
(extension), after checking both directions (retrying each unknown in a
fresh isolated solver): if both directions are unsat the engine fails
with a branch-contradiction error; if exactly one direction is sat and
the other unsat it appends that choice to the current schedule and
enqueues nothing; if both are sat, or one is sat and the other unknown,
it records the current choice on the current schedule (True whenever
True is feasible), clones the schedule up to this point with the
opposite choice (or an uncheckable marker) appended, and enqueues the
clone. -/
theorem nonzero_extend_spec (o : Oracle) (v : Term) (s : EngState)
    (hend : s.cursched.length = s.curschedidx) (hroot : s.cursched ≠ []) :
    ((retryCheck o (s.assertions ++ [v])).res = CheckRes.unsat →
     (retryCheck o (s.assertions ++ [Term.not v])).res = CheckRes.unsat →
       nonzero o v s = (s, Except.error EngErr.branchContradiction))
    ∧ ((retryCheck o (s.assertions ++ [v])).res = CheckRes.sat →
       (retryCheck o (s.assertions ++ [Term.not v])).res = CheckRes.unsat →
       nonzero o v s =
         ({ s with
              cursched := s.cursched ++
                [(Choice.ctrue, ((s.cursched.getLast?).getD (Choice.cnone, 0)).2)],
              assertions := s.assertions ++ [v],
              curschedidx := s.curschedidx + 1 }, Except.ok true))
    ∧ ((retryCheck o (s.assertions ++ [v])).res = CheckRes.unsat →
       (retryCheck o (s.assertions ++ [Term.not v])).res = CheckRes.sat →
       nonzero o v s =
         ({ s with
              cursched := s.cursched ++
                [(Choice.cfalse, ((s.cursched.getLast?).getD (Choice.cnone, 0)).2)],
              assertions := s.assertions ++ [Term.not v],
              curschedidx := s.curschedidx + 1 }, Except.ok false))
    ∧ ((retryCheck o (s.assertions ++ [v])).res = CheckRes.sat →
       (retryCheck o (s.assertions ++ [Term.not v])).res = CheckRes.sat →
       nonzero o v s =
         ({ s with
              cursched := s.cursched ++ [(Choice.ctrue, s.nodeCtr)],
              schedq := s.schedq ++ [s.cursched ++ [(Choice.cfalse, s.nodeCtr + 1)]],
              nodeCtr := s.nodeCtr + 2,
              assertions := s.assertions ++ [v],
              curschedidx := s.curschedidx + 1 }, Except.ok true))
    ∧ ((retryCheck o (s.assertions ++ [v])).res = CheckRes.sat →
       (retryCheck o (s.assertions ++ [Term.not v])).res = CheckRes.unknown →
       nonzero o v s =
         ({ s with
              cursched := s.cursched ++ [(Choice.ctrue, s.nodeCtr)],
              schedq := s.schedq ++
                [s.cursched ++
                  [(Choice.marker (Term.not v)
                      (retryCheck o (s.assertions ++ [Term.not v])).reason,
                    s.nodeCtr + 1)]],
              nodeCtr := s.nodeCtr + 2,
              assertions := s.assertions ++ [v],
              curschedidx := s.curschedidx + 1 }, Except.ok true))
    ∧ ((retryCheck o (s.assertions ++ [v])).res = CheckRes.unknown →
       (retryCheck o (s.assertions ++ [Term.not v])).res = CheckRes.sat →
       nonzero o v s =
         ({ s with
              cursched := s.cursched ++
                [(Choice.marker v (retryCheck o (s.assertions ++ [v])).reason,
                  s.nodeCtr)],
              schedq := s.schedq ++ [s.cursched ++ [(Choice.cfalse, s.nodeCtr + 1)]],
              nodeCtr := s.nodeCtr + 2 },
          Except.error
            (EngErr.uncheckable v (retryCheck o (s.assertions ++ [v])).reason))) := by
  obtain ⟨asrt, cs, idx, q, nc⟩ := s
  dsimp only at hend hroot ⊢
  subst hend
  refine ⟨?_, ?_, ?_, ?_, ?_, ?_⟩ <;> intro h1 h2 <;>
    simp [nonzero, extendSched, h1, h2, queue_schedule, followSched,
          List.getElem?_concat_length]

/-- Witness for the extension theorem: a primed state with a
both-directions-sat oracle forks and returns True. -/
theorem nonzero_extend_spec_witness :
    statePrimed.cursched.length = statePrimed.curschedidx
    ∧ statePrimed.cursched ≠ []
    ∧ nonzero oracleSat (Term.var "b") statePrimed =
        ({ assertions := [Term.var "b"],
           cursched := [(Choice.cnone, 0), (Choice.ctrue, 1)],
           curschedidx := 2,
           schedq := [[(Choice.cnone, 0), (Choice.cfalse, 2)]],
           nodeCtr := 3 }, Except.ok true) := by
  refine ⟨rfl, by simp [statePrimed], ?_⟩
  have h := (nonzero_extend_spec oracleSat (Term.var "b") statePrimed rfl
      (by simp [statePrimed])).2.2.2.1 rfl rfl
  simpa [statePrimed] using h

/-- C9: when extending the schedule with one direction unknown (even
after the isolated retry) and the other unsat, the engine still forks:
the current schedule receives an uncheckable marker for the True
direction and the enqueued clone receives an uncheckable marker for the
False direction (so in the unknown/unsat ordering a schedule for the
direction already determined unsat is enqueued); the current path raises
`UncheckableConstraintError` at this decision point; and replaying the
enqueued clone up to this decision point also raises
`UncheckableConstraintError` instead of being pruned. -/
theorem nonzero_unknown_unsat_fork (o : Oracle) (v : Term) (s : EngState)
    (hend : s.cursched.length = s.curschedidx) (hroot : s.cursched ≠ [])
    (hcase : ((retryCheck o (s.assertions ++ [v])).res = CheckRes.unknown
        ∧ (retryCheck o (s.assertions ++ [Term.not v])).res = CheckRes.unsat)
      ∨ ((retryCheck o (s.assertions ++ [v])).res = CheckRes.unsat
        ∧ (retryCheck o (s.assertions ++ [Term.not v])).res = CheckRes.unknown)) :
    nonzero o v s =
      ({ s with
           cursched := s.cursched ++
             [(Choice.marker v (retryCheck o (s.assertions ++ [v])).reason,
               s.nodeCtr)],
           schedq := s.schedq ++
             [s.cursched ++
               [(Choice.marker (Term.not v)
                   (retryCheck o (s.assertions ++ [Term.not v])).reason,
                 s.nodeCtr + 1)]],
           nodeCtr := s.nodeCtr + 2 },
       Except.error
         (EngErr.uncheckable v (retryCheck o (s.assertions ++ [v])).reason))
    ∧ (∀ (o2 : Oracle) (v2 : Term) (s2 : EngState),
        s2.cursched = s.cursched ++
          [(Choice.marker (Term.not v)
              (retryCheck o (s.assertions ++ [Term.not v])).reason,
            s.nodeCtr + 1)] →
        s2.curschedidx = s.cursched.length →
        (nonzero o2 v2 s2).2 =
          Except.error
            (EngErr.uncheckable (Term.not v)
              (retryCheck o (s.assertions ++ [Term.not v])).reason)) := by
  constructor
  · obtain ⟨asrt, cs, idx, q, nc⟩ := s
    dsimp only at hend hroot hcase ⊢
    subst hend
    rcases hcase with ⟨h1, h2⟩ | ⟨h1, h2⟩ <;>
      simp [nonzero, extendSched, h1, h2, queue_schedule, followSched,
            List.getElem?_concat_length]
  · intro o2 v2 s2 hsched hidx
    have hlen : s2.cursched.length ≠ s2.curschedidx := by
      rw [hsched, hidx, List.length_append]
      simp
    have hentry : s2.cursched[s2.curschedidx]? =
        some (Choice.marker (Term.not v)
                (retryCheck o (s.assertions ++ [Term.not v])).reason,
              s.nodeCtr + 1) := by
      rw [hsched, hidx, List.getElem?_concat_length]
    simp [nonzero, hlen, followSched, hentry]

/-- Witness for the unknown/unsat fork theorem: under `oracleUU` the
True direction of `var b` is unknown and the False direction unsat; the
fork still happens, both schedules carry markers, and replaying the
clone raises. -/
theorem nonzero_unknown_unsat_fork_witness :
    statePrimed.cursched.length = statePrimed.curschedidx
    ∧ statePrimed.cursched ≠ []
    ∧ (retryCheck oracleUU ([] ++ [Term.var "b"])).res = CheckRes.unknown
    ∧ (retryCheck oracleUU ([] ++ [Term.not (Term.var "b")])).res = CheckRes.unsat
    ∧ nonzero oracleUU (Term.var "b") statePrimed =
        ({ assertions := [],
           cursched := [(Choice.cnone, 0),
                        (Choice.marker (Term.var "b") "timeout", 1)],
           curschedidx := 1,
           schedq := [[(Choice.cnone, 0),
                       (Choice.marker (Term.not (Term.var "b")) "", 2)]],
           nodeCtr := 3 },
         Except.error (EngErr.uncheckable (Term.var "b") "timeout"))
    ∧ (nonzero oracleSat (Term.var "z")
        { assertions := [],
          cursched := [(Choice.cnone, 0),
                       (Choice.marker (Term.not (Term.var "b")) "", 2)],
          curschedidx := 1, schedq := [], nodeCtr := 1 }).2 =
        Except.error (EngErr.uncheckable (Term.not (Term.var "b")) "") := by
  have h := nonzero_unknown_unsat_fork oracleUU (Term.var "b") statePrimed rfl
    (by simp [statePrimed]) (Or.inl ⟨rfl, rfl⟩)
  refine ⟨rfl, by simp [statePrimed], rfl, rfl, ?_, ?_⟩
  · simpa [statePrimed, retryCheck, oracleUU] using h.1
  · exact h.2 oracleSat (Term.var "z")
      { assertions := [],
        cursched := [(Choice.cnone, 0),
                     (Choice.marker (Term.not (Term.var "b")) "", 2)],
        curschedidx := 1, schedq := [], nodeCtr := 1 } rfl rfl

/-- C3: `assume(e)` first checks whether `not e` is unsat and, if so,
returns without asserting anything and without lengthening the schedule
(an already-implied assumption is a no-op); otherwise it appends a
non-forking `(None, node)` entry when at end-of-schedule, advances the
index, asserts `e`, re-checks (retrying unknown in an isolated solver),
and raises `UnsatisfiablePath` exactly when the solver reports unsat and
`UncheckableConstraintError` on unknown; the scheduler then discards
such a path without yielding a result — silently for
`UnsatisfiablePath`, logged for `UncheckableConstraintError`. -/
theorem assume_spec (o : Oracle) (e : PyVal) (s : EngState)
    (hend : s.cursched.length = s.curschedidx) :
    ((o.incr (s.assertions ++ [toTerm (symnot e)])).res = CheckRes.unsat →
       assume o e s = (s, Except.ok ()))
    ∧ (isTrueLit e = false →
       (o.incr (s.assertions ++ [toTerm (symnot e)])).res ≠ CheckRes.unsat →
       ((retryCheck o (s.assertions ++ [toTerm e])).res = CheckRes.sat →
          assume o e s =
            ({ s with
                 cursched := s.cursched ++ [(Choice.cnone, assumeNextNode s)],
                 nodeCtr := s.nodeCtr + (if s.cursched.isEmpty then 2 else 1),
                 curschedidx := s.curschedidx + 1,
                 assertions := s.assertions ++ [toTerm e] }, Except.ok ()))
       ∧ ((retryCheck o (s.assertions ++ [toTerm e])).res = CheckRes.unsat →
          assume o e s =
            ({ s with
                 cursched := s.cursched ++ [(Choice.cnone, assumeNextNode s)],
                 nodeCtr := s.nodeCtr + (if s.cursched.isEmpty then 2 else 1),
                 curschedidx := s.curschedidx + 1,
                 assertions := s.assertions ++ [toTerm e] },
             Except.error EngErr.unsatPath))
       ∧ ((retryCheck o (s.assertions ++ [toTerm e])).res = CheckRes.unknown →
          assume o e s =
            ({ s with
                 cursched := s.cursched ++ [(Choice.cnone, assumeNextNode s)],
                 nodeCtr := s.nodeCtr + (if s.cursched.isEmpty then 2 else 1),
                 curschedidx := s.curschedidx + 1,
                 assertions := s.assertions ++ [toTerm e] },
             Except.error
               (EngErr.uncheckable (toTerm e)
                 (retryCheck o (s.assertions ++ [toTerm e])).reason))))
    ∧ (∀ (α : Type) (runFn : Sched → PathResult α) (fuel : Nat)
         (q : List Sched) (cur : Sched) (rest : List Sched),
        popSched q = (some cur, rest) →
        ((runFn cur).outcome = PathOutcome.unsatPath →
           applyLoop runFn (fuel + 1) q =
             applyLoop runFn fuel (rest ++ (runFn cur).newScheds))
        ∧ (∀ ex r, (runFn cur).outcome = PathOutcome.uncheckable ex r →
           applyLoop runFn (fuel + 1) q =
             { yields := (applyLoop runFn fuel (rest ++ (runFn cur).newScheds)).yields,
               logs := (ex, r) ::
                 (applyLoop runFn fuel (rest ++ (runFn cur).newScheds)).logs,
               aborted := (applyLoop runFn fuel (rest ++ (runFn cur).newScheds)).aborted })) := by
  refine ⟨?_, ?_, ?_⟩
  · intro himp
    cases hlit : isTrueLit e <;> simp [assume, hlit, himp]
  · intro he himp
    obtain ⟨asrt, cs, idx, q, nc⟩ := s
    dsimp only at hend himp ⊢
    subst hend
    refine ⟨?_, ?_, ?_⟩ <;> intro hres <;>
      simp [assume, he, himp, hres, List.getElem?_concat_length, assumeNextNode]
  · intro α runFn fuel q cur rest hpop
    constructor
    · intro hout
      rw [applyLoop, hpop]
      simp [hout]
    · intro ex r hout
      rw [applyLoop, hpop]
      simp [hout]

/-- Witness for the `assume` theorem: an unimplied symbolic assumption
at end-of-schedule appends a `(None, node)` entry and asserts; the loop
discards an unsatisfiable path silently and logs an uncheckable one. -/
theorem assume_spec_witness :
    statePrimed.cursched.length = statePrimed.curschedidx
    ∧ isTrueLit (PyVal.sym (Term.var "p")) = false
    ∧ (oracleSat.incr (statePrimed.assertions ++
        [toTerm (symnot (PyVal.sym (Term.var "p")))])).res ≠ CheckRes.unsat
    ∧ assume oracleSat (PyVal.sym (Term.var "p")) statePrimed =
        ({ assertions := [Term.var "p"],
           cursched := [(Choice.cnone, 0), (Choice.cnone, 1)],
           curschedidx := 2, schedq := [], nodeCtr := 2 }, Except.ok ())
    ∧ applyLoop runFnAssume 2 [[]] = { yields := [], logs := [], aborted := none }
    ∧ applyLoop runFnAssume 2 [[(Choice.cnone, 0)]] =
        { yields := [], logs := [(Term.var "e", "timeout")], aborted := none } := by
  have h := assume_spec oracleSat (PyVal.sym (Term.var "p")) statePrimed rfl
  refine ⟨rfl, rfl, by simp [oracleSat], ?_, ?_, ?_⟩
  · have h2 := (h.2.1 rfl (by simp [oracleSat])).1 rfl
    simpa [statePrimed, assumeNextNode] using h2
  · have h3 := (h.2.2 Nat runFnAssume 1 [[]] [] [] rfl).1 rfl
    rw [h3]
    simp [applyLoop, popSched, runFnAssume]
  · have h4 := (h.2.2 Nat runFnAssume 1 [[(Choice.cnone, 0)]]
      [(Choice.cnone, 0)] [] rfl).2 (Term.var "e") "timeout" rfl
    rw [h4]
    simp [applyLoop, popSched, runFnAssume]

/-- No `PyVal.bool` image is symbolic. -/
theorem any_isSymbolic_map_bool (bs : List Bool) :
    (bs.map PyVal.bool).any isSymbolic = false := by
  induction bs with
  | nil => rfl
  | cons hd tl ih => simp [isSymbolic, ih]

/-- Truthiness of mapped booleans under `all` is `all` of the booleans. -/
theorem all_truthy_map_bool (bs : List Bool) :
    (bs.map PyVal.bool).all truthy = bs.all id := by
  induction bs with
  | nil => rfl
  | cons hd tl ih => simp [truthy, ih]

/-- Truthiness of mapped booleans under `any` is `any` of the booleans. -/
theorem any_truthy_map_bool (bs : List Bool) :
    (bs.map PyVal.bool).any truthy = bs.any id := by
  induction bs with
  | nil => rfl
  | cons hd tl ih => simp [truthy, ih]

/-- C5 counterexample: `implies` applied to two concrete host booleans
returns a symbolic implication term, not a host boolean — the
all-concrete degrade claimed for every logical helper fails at
`implies`. -/
theorem implies_concrete_counterexample :
    implies (PyVal.bool true) (PyVal.bool false)
      = PyVal.sym (Term.implies (Term.boolLit true) (Term.boolLit false))
    ∧ isSymbolic (implies (PyVal.bool true) (PyVal.bool false)) = true :=
  ⟨rfl, rfl⟩

/-- C5 (amended): `symand`, `symor`, `symnot`, `symeq`, `forall` and
`exists` accept mixed symbolic and concrete operands and degrade to host
logic when all operands are concrete host values, but `implies` always
returns a symbolic implication term, even on concrete operands. -/
theorem logical_helpers_concrete (bs : List Bool) (x y : Bool) (m n : Int)
    (vars : List PyVal) (a b : PyVal) :
    symand (bs.map PyVal.bool) = PyVal.bool (bs.all id)
    ∧ symor (bs.map PyVal.bool) = PyVal.bool (bs.any id)
    ∧ symnot (PyVal.bool x) = PyVal.bool (!x)
    ∧ symnot (PyVal.int m) = PyVal.bool (m == 0)
    ∧ symeq (PyVal.bool x) (PyVal.bool y) = PyVal.bool (x == y)
    ∧ symeq (PyVal.int m) (PyVal.int n) = PyVal.bool (m == n)
    ∧ symForall vars (PyVal.bool x) = PyVal.bool x
    ∧ symForall vars (PyVal.int m) = PyVal.int m
    ∧ symExists vars (PyVal.bool x) = PyVal.bool x
    ∧ symExists vars (PyVal.int m) = PyVal.int m
    ∧ isSymbolic (implies a b) = true := by
  refine ⟨?_, ?_, rfl, ?_, ?_, ?_, rfl, rfl, rfl, rfl, rfl⟩
  · simp [symand, any_isSymbolic_map_bool, all_truthy_map_bool]
  · simp [symor, any_isSymbolic_map_bool, any_truthy_map_bool]
  · simp [symnot, truthy, bne]
  · simp [symeq, pyEq]
  · simp [symeq, pyEq]

/-- C6 counterexample: with two queued schedules, where the first popped
path hits the `wrap` TypeError, the loop aborts with that TypeError:
nothing is yielded and the remaining schedule is never executed — even
though that remaining schedule alone would have yielded a result. -/
theorem wrap_typeerror_counterexample :
    applyLoop runFnWrapErr 2 [[(Choice.cnone, 0)], []] =
      { yields := [], logs := [],
        aborted := some "Not a bool, int, long, float, or z3.ExprRef" }
    ∧ applyLoop runFnWrapErr 2 [[(Choice.cnone, 0)]] =
      { yields := [42], logs := [], aborted := none } := by
  constructor <;> rfl

/-- C6 (amended): a host value that cannot be coerced raises TypeError
at the wrapping boundary, and the scheduler does not recover it: the
loop re-raises any such exception, terminating the whole exploration —
remaining scheduled paths are not executed. -/
theorem wrap_typeerror_aborts (d : String) (α : Type)
    (runFn : Sched → PathResult α) (fuel : Nat) (q : List Sched)
    (cur : Sched) (rest : List Sched) (msg : String)
    (hpop : popSched q = (some cur, rest))
    (hout : (runFn cur).outcome = PathOutcome.other msg) :
    wrap (WrapArg.hostOther d) =
      Except.error "Not a bool, int, long, float, or z3.ExprRef"
    ∧ applyLoop runFn (fuel + 1) q =
        { yields := [], logs := [], aborted := some msg } := by
  refine ⟨rfl, ?_⟩
  rw [applyLoop, hpop]
  simp [hout]

/-- Witness for the TypeError-abort theorem at a concrete queue. -/
theorem wrap_typeerror_aborts_witness :
    popSched [[(Choice.cnone, 0)], []] = (some [], [[(Choice.cnone, 0)]])
    ∧ (runFnWrapErr []).outcome =
        PathOutcome.other "Not a bool, int, long, float, or z3.ExprRef"
    ∧ applyLoop runFnWrapErr 1 [[(Choice.cnone, 0)], []] =
        { yields := [], logs := [],
          aborted := some "Not a bool, int, long, float, or z3.ExprRef" } :=
  ⟨rfl, rfl,
    (wrap_typeerror_aborts "dict" Nat runFnWrapErr 0 [[(Choice.cnone, 0)], []]
      [] [[(Choice.cnone, 0)]] "Not a bool, int, long, float, or z3.ExprRef"
      rfl rfl).2⟩

/-- C7: for two compound symbolic values of the same type (hence same
flattening length, with at least one leaf), `a == b` is the symbolic
conjunction of pointwise equality terms over the flattened leaves, and
`a != b` is the negation of that conjunction. -/
theorem compound_eq_spec (a b : Compound)
    (hlen : (flatten_compound a).length = (flatten_compound b).length)
    (hne : flatten_compound a ≠ []) :
    SStructBase.eq a b = PyVal.sym (flattenedEqConj a b)
    ∧ Symbolic.ne a b = PyVal.sym (Term.not (flattenedEqConj a b)) := by
  obtain ⟨fa, hfa⟩ : ∃ l, flatten_compound a = l := ⟨_, rfl⟩
  obtain ⟨fb, hfb⟩ : ∃ l, flatten_compound b = l := ⟨_, rfl⟩
  rw [hfa, hfb] at hlen
  rw [hfa] at hne
  have key : SStructBase.eq a b = PyVal.sym (flattenedEqConj a b) := by
    simp only [SStructBase.eq, flattenedEqConj, hfa, hfb]
    rcases fa with _ | ⟨x, xs⟩
    · exact absurd rfl hne
    rcases fb with _ | ⟨y, ys⟩
    · simp at hlen
    simp [symand, isSymbolic, List.map_zipWith, toTerm]
  refine ⟨key, ?_⟩
  rw [Symbolic.ne, key]
  rfl

/-- Witness for compound equality at two concrete two-field structs. -/
theorem compound_eq_spec_witness :
    (flatten_compound compA).length = (flatten_compound compB).length
    ∧ flatten_compound compA ≠ []
    ∧ SStructBase.eq compA compB = PyVal.sym (flattenedEqConj compA compB) := by
  have h1 : flatten_compound compA = [Term.var "x.a", Term.var "x.b"] := by
    simp [compA, flatten_compound, flattenFields]
  have h2 : flatten_compound compB = [Term.var "y.a", Term.var "y.b"] := by
    simp [compB, flatten_compound, flattenFields]
  refine ⟨by simp [h1, h2], by rw [h1]; simp, ?_⟩
  exact (compound_eq_spec compA compB (by simp [h1, h2]) (by rw [h1]; simp)).1

/-- C8: model evaluation of a leaf happens under the completed solver
model (the total valuation `m`) and yields a host integer for an integer
literal, host True/False for boolean literals, a wrapped opaque value
for an uninterpreted-sort value — with distinct wrapped values
remaining distinguishable — and an error for any other result kind,
such as an enum constant. -/
theorem model_eval_spec (m : Term → ZVal) (expr : Term) (n : Int) (b : Bool)
    (sn : String) (i : Nat) (en : String) (d : String) (v1 v2 : ZVal) :
    (m expr = ZVal.intVal n → Model.eval m expr = Except.ok (EvalRes.int n))
    ∧ (m expr = ZVal.boolVal b → Model.eval m expr = Except.ok (EvalRes.bool b))
    ∧ (m expr = ZVal.uninterp sn i →
        Model.eval m expr = Except.ok (EvalRes.wrapped (ZVal.uninterp sn i)))
    ∧ (m expr = ZVal.enumVal en →
        Model.eval m expr = Except.error "Expression is not a concrete value")
    ∧ (m expr = ZVal.otherExpr d →
        Model.eval m expr = Except.error "Expression is not a concrete value")
    ∧ (v1 ≠ v2 → EvalRes.wrapped v1 ≠ EvalRes.wrapped v2) := by
  refine ⟨?_, ?_, ?_, ?_, ?_, ?_⟩
  · intro h; simp [Model.eval, h]
  · intro h; simp [Model.eval, h]
  · intro h; simp [Model.eval, h]
  · intro h; simp [Model.eval, h]
  · intro h; simp [Model.eval, h]
  · intro h hcon; exact h (EvalRes.wrapped.inj hcon)

/-- Witness for model evaluation under a concrete completed model, with
two distinct wrapped uninterpreted values. -/
theorem model_eval_spec_witness :
    (fun (_ : Term) => ZVal.uninterp "Token" 0) (Term.var "t") =
      ZVal.uninterp "Token" 0
    ∧ Model.eval (fun _ => ZVal.uninterp "Token" 0) (Term.var "t") =
        Except.ok (EvalRes.wrapped (ZVal.uninterp "Token" 0))
    ∧ EvalRes.wrapped (ZVal.uninterp "Token" 0) ≠
        EvalRes.wrapped (ZVal.uninterp "Token" 1) := by
  refine ⟨rfl, ?_, ?_⟩
  · exact (model_eval_spec (fun _ => ZVal.uninterp "Token" 0) (Term.var "t")
      0 true "Token" 0 "" "" (ZVal.uninterp "Token" 0)
      (ZVal.uninterp "Token" 1)).2.2.1 rfl
  · exact (model_eval_spec (fun _ => ZVal.uninterp "Token" 0) (Term.var "t")
      0 true "Token" 0 "" "" (ZVal.uninterp "Token" 0)
      (ZVal.uninterp "Token" 1)).2.2.2.2.2 (by decide)

/-- C10: the schedule pool is a stack, not a FIFO queue:
`queue_schedule` appends at the tail of `schedq`, the loop removes with
`pop()` from the same end, and so after two enqueues the most recently
enqueued schedule runs first — depth-first path order. -/
theorem schedq_lifo (sch : Sched) (q : List Sched) (α : Type)
    (runFn : Sched → PathResult α) (fuel : Nat) (s1 s2 : Sched) (v1 v2 : α)
    (h1 : runFn s1 = { outcome := PathOutcome.ret v1, newScheds := [] })
    (h2 : runFn s2 = { outcome := PathOutcome.ret v2, newScheds := [] }) :
    queue_schedule sch q = q ++ [sch]
    ∧ popSched (queue_schedule sch q) = (some sch, q)
    ∧ (applyLoop runFn (fuel + 2)
        (queue_schedule s2 (queue_schedule s1 []))).yields = [v2, v1] := by
  refine ⟨rfl, ?_, ?_⟩
  · simp [queue_schedule, popSched, List.getLast?_concat, List.dropLast_concat]
  · show (applyLoop runFn (fuel + 2) [s1, s2]).yields = [v2, v1]
    simp [applyLoop, popSched, h1, h2, applyLoop_nil]

/-- Witness for the LIFO theorem: of two queued schedules, the trace
yields the later-queued one first. -/
theorem schedq_lifo_witness :
    runFnLen [] = { outcome := PathOutcome.ret 0, newScheds := [] }
    ∧ runFnLen [(Choice.cnone, 0)] = { outcome := PathOutcome.ret 1, newScheds := [] }
    ∧ (applyLoop runFnLen 2
        (queue_schedule [(Choice.cnone, 0)] (queue_schedule [] []))).yields = [1, 0] :=
  ⟨rfl, rfl,
    (schedq_lifo [] [] Nat runFnLen 0 [] [(Choice.cnone, 0)] 0 1 rfl rfl).2.2⟩

/-- C2 (code bug): `SStructBase.__setattr__` does not copy the parent
compound — it mutates the parent dict in place — and `unwrap` of a
struct operand yields its live dict reference, so after `y.f = x` (a
struct written into a struct field) the two handles share the dict at
address 0: the subsequent mutation `x.g = 5` through `x` changes the
value read through `y.f.g`, contradicting the copy-on-assign semantics
promised by the `Symbolic` class docstring. -/
theorem setattr_shares_struct_field :
    structGetattr heapY (structGetattr heapY (PyCompound.ref 1) "f") "g"
      = PyCompound.leaf (Term.var "x.g")
    ∧ structGetattr heapZ (structGetattr heapZ (PyCompound.ref 1) "f") "g"
      = PyCompound.leaf (Term.intLit 5)
    ∧ PyCompound.leaf (Term.var "x.g") ≠ PyCompound.leaf (Term.intLit 5) :=
  ⟨rfl, rfl, by simp⟩

end Simsym
